import Mathlib

/-!
Shallow embedding of the FlowState v1.1 sync coordinator and attachment
store (src/gui/src-tauri/src/lib.rs and src/gui/src-tauri/src/database.rs),
together with proofs settling the frozen claims about them.

Modelling conventions:
* Filesystem paths are lists of components; Rust PathBuf.join is list append.
* The external git client is modelled by an abstract repository state
  (commit list, count of pending working-tree changes, optional remote).
  The outcome of a pull from the network is an oracle argument, since it
  depends on the remote; a fresh commit id is modelled as the current
  length of the commit list.
* SQLite tables are association lists of rows; SQL UPDATE/DELETE become
  map/filter over those lists.  CURRENT_TIMESTAMP becomes an explicit
  argument called now.  Column defaults that live in schema.sql (a file of
  the repository that is not under src/) follow the spec's data model:
  ai fields and indexed_at default to NULL, content_extracted to false.
* Rust i64 becomes Int, and decimal rendering of integers by format is the
  function natDecimal / intDecimal below.
-/

namespace FlowState

/-! ### Decimal rendering of integers (Rust Display for integer format arguments) -/

/-- One decimal digit list step with explicit fuel; renders n in base 10,
most significant digit first.  Mirrors what format of an integer prints. -/
def decDigitsAux : Nat → Nat → List Char
  | 0, _ => []
  | Nat.succ fuel, n =>
    if n = 0 then [] else decDigitsAux fuel (n / 10) ++ [Nat.digitChar (n % 10)]

/-- Decimal string of a natural number, as Rust format prints it. -/
def natDecimal (n : Nat) : String :=
  if n = 0 then "0" else String.mk (decDigitsAux n n)

/-- Decimal string of an integer, as Rust format prints an i64. -/
def intDecimal (i : Int) : String :=
  if i < 0 then "-" ++ natDecimal i.natAbs else natDecimal i.toNat

/-! ### Git model (the external version-control client, lib.rs lines 828-1163) -/

/-- A commit of the version-controlled working tree. -/
structure GitCommit where
  cid : Nat
  message : String
deriving Repr, DecidableEq

/-- Abstract state of the git repository at the data path: the commit list
(head first), the number of changed lines that git status --porcelain would
print, and the configured origin remote, if any.  The whole value is absent
when no .git directory exists. -/
structure GitRepo where
  commits : List GitCommit
  pending : Nat
  remote : Option String
deriving Repr, DecidableEq

/-- Outcome of the external pull --rebase origin main call: success (with
the commit list the rebase leaves behind, supplied by the remote), a
failure whose stderr contains the word conflict, or any other failure. -/
inductive PullResult where
  | ok (rebased : List GitCommit)
  | conflictErr
  | otherErr
deriving Repr, DecidableEq

/-- Tagged result of git_sync, following the JSON status values in the
source: conflict, synced and committed_local. -/
inductive SyncResult where
  | conflict (committed : Bool)
  | synced (committed pushed : Bool)
  | committedLocal (committed : Bool)
deriving Repr, DecidableEq

/-- Tagged result of git_init: already_initialized or initialized. -/
inductive InitResult where
  | alreadyInitialized
  | initialized
deriving Repr, DecidableEq

/-- Tagged action reported by git_set_remote. -/
inductive RemoteAction where
  | added
  | updated
deriving Repr, DecidableEq

/-- Embedding of git_init (lib.rs lines 828-886): if .git already exists,
return already_initialized without touching anything; otherwise create the
repository, write the generated .gitignore, stage and make the initial
commit with message FlowState initialized. -/
def git_init (repo : Option GitRepo) : InitResult × Option GitRepo :=
  match repo with
  | some r => (InitResult.alreadyInitialized, some r)
  | none =>
      (InitResult.initialized,
        some { commits := [{ cid := 0, message := "FlowState initialized" }],
               pending := 0, remote := none })

/-- Report assembled by git_status (lib.rs lines 888-953). -/
structure StatusReport where
  initialized : Bool
  pending_changes : Nat
  has_changes : Bool
  remote_url : Option String
  last_commit : Option GitCommit
deriving Repr, DecidableEq

/-- Embedding of git_status (lib.rs lines 888-953): a pure read.  When the
repository is uninitialized only the initialized flag is meaningful and the
remaining fields take their empty defaults. -/
def git_status (repo : Option GitRepo) : StatusReport :=
  match repo with
  | none =>
      { initialized := false, pending_changes := 0, has_changes := false,
        remote_url := none, last_commit := none }
  | some r =>
      { initialized := true, pending_changes := r.pending,
        has_changes := decide (0 < r.pending), remote_url := r.remote,
        last_commit := r.commits.head? }

/-- Embedding of git_sync (lib.rs lines 956-1055).  Order of effects in the
source: check .git, git add ., read porcelain status, commit when dirty
(message defaulted to FlowState sync - now), check the remote, pull with
rebase (a failure whose stderr mentions conflict returns the conflict
result, any other pull failure is swallowed), push (failure only clears the
pushed flag).  The fresh commit id is modelled as the commit-list length. -/
def git_sync (repo : Option GitRepo) (commitMessage : Option String)
    (now : String) (pull : PullResult) (pushOk : Bool) :
    Except String (SyncResult × GitRepo) :=
  match repo with
  | none => Except.error "Git not initialized. Run git_init first."
  | some r =>
      let hasChanges : Bool := decide (r.pending ≠ 0)
      let message := commitMessage.getD ("FlowState sync - " ++ now)
      let r1 : GitRepo :=
        if r.pending ≠ 0 then
          { r with commits := { cid := r.commits.length, message := message } :: r.commits,
                   pending := 0 }
        else r
      match r1.remote with
      | some _ =>
          match pull with
          | PullResult.conflictErr =>
              Except.ok (SyncResult.conflict hasChanges, r1)
          | PullResult.ok rebased =>
              Except.ok (SyncResult.synced hasChanges pushOk, { r1 with commits := rebased })
          | PullResult.otherErr =>
              Except.ok (SyncResult.synced hasChanges pushOk, r1)
      | none => Except.ok (SyncResult.committedLocal hasChanges, r1)

/-- Embedding of git_set_remote (lib.rs lines 1057-1093): add origin when
absent, else update its url.  With no repository at the path both the probe
and the subsequent add fail, so the command errors. -/
def git_set_remote (repo : Option GitRepo) (url : String) :
    Except String (RemoteAction × GitRepo) :=
  match repo with
  | none => Except.error "fatal: not a git repository"
  | some r =>
      match r.remote with
      | some _ => Except.ok (RemoteAction.updated, { r with remote := some url })
      | none => Except.ok (RemoteAction.added, { r with remote := some url })

/-- Embedding of git_clone (lib.rs lines 1095-1126): refuse a non-empty
target, otherwise produce the repository holding the remote's commits. -/
def git_clone (targetNonEmpty : Bool) (remoteCommits : List GitCommit)
    (url : String) : Except String GitRepo :=
  if targetNonEmpty then Except.error "Target directory is not empty"
  else Except.ok { commits := remoteCommits, pending := 0, remote := some url }

/-- Embedding of git_history (lib.rs lines 1128-1163): the most recent
limit commits; git log fails when the path is not a repository. -/
def git_history (repo : Option GitRepo) (limit : Nat) :
    Except String (List GitCommit) :=
  match repo with
  | none => Except.error "fatal: not a git repository"
  | some r => Except.ok (r.commits.take limit)

/-! ### Database rows (database.rs lines 113-205) -/

/-- Row of the attachments table (database.rs struct Attachment).  The
stored file_path is a filesystem path, modelled as its list of
components. -/
structure Attachment where
  id : Int
  project_id : Int
  component_id : Option Int
  problem_id : Option Int
  file_name : String
  file_path : List String
  file_type : String
  file_size : Option Int
  file_hash : Option String
  is_external : Bool
  user_description : Option String
  tags : Option String
  ai_description : Option String
  ai_summary : Option String
  content_extracted : Bool
  created_at : String
  updated_at : String
  indexed_at : Option String
deriving Repr, DecidableEq

/-- Row of the content_locations table (database.rs struct ContentLocation). -/
structure ContentLocation where
  id : Int
  attachment_id : Int
  description : String
  category : Option String
  location_type : String
  start_location : String
  end_location : Option String
  snippet : Option String
  related_problem_id : Option Int
  related_solution_id : Option Int
  related_learning_id : Option Int
  related_component_id : Option Int
  created_at : String
deriving Repr, DecidableEq

/-- Row of the extractions table (database.rs struct Extraction).  The
confidence score is stored as an opaque value here; no claim computes with
it. -/
structure Extraction where
  id : Int
  attachment_id : Int
  record_type : String
  record_id : Int
  source_location : Option String
  source_snippet : Option String
  confidence : Option Int
  user_reviewed : Bool
  user_approved : Option Bool
  created_at : String
deriving Repr, DecidableEq

/-- The singleton sync_status row (database.rs struct SyncStatus). -/
structure SyncStatus where
  id : Int
  device_name : String
  device_id : String
  remote_url : Option String
  last_sync_at : Option String
  last_sync_commit : Option String
  pending_changes : Int
  has_conflicts : Bool
  created_at : String
  updated_at : String
deriving Repr, DecidableEq

/-- Row of the append-only sync_history table (database.rs struct
SyncHistory). -/
structure SyncHistory where
  id : Int
  device_id : String
  operation : String
  commit_hash : Option String
  files_changed : Option Int
  status : Option String
  error_message : Option String
  created_at : String
deriving Repr, DecidableEq

/-- The SQLite database: one list per table touched by the claims, plus
per-table rowid counters standing for SQLite autoincrement. -/
structure Db where
  attachments : List Attachment
  contentLocations : List ContentLocation
  extractions : List Extraction
  syncStatus : Option SyncStatus
  syncHistory : List SyncHistory
  nextAttachmentId : Int
  nextSyncHistoryId : Int
deriving Repr, DecidableEq

/-! ### Database operations (database.rs) -/

/-- Embedding of Database::get_attachment (database.rs lines 1013-1021):
SELECT by id. -/
def get_attachment (db : Db) (id : Int) : Option Attachment :=
  db.attachments.find? (fun a => decide (a.id = id))

/-- Embedding of Database::create_attachment (database.rs lines 1052-1074):
INSERT the listed columns; ai fields, content_extracted and indexed_at take
their schema defaults, created_at and updated_at take CURRENT_TIMESTAMP. -/
def create_attachment (db : Db) (project_id : Int) (file_name : String)
    (file_path : List String) (file_type : String) (file_size : Option Int)
    (file_hash : Option String) (is_external : Bool)
    (component_id problem_id : Option Int) (user_description : Option String)
    (tags : Option String) (now : String) : Db × Attachment :=
  let a : Attachment :=
    { id := db.nextAttachmentId, project_id := project_id,
      component_id := component_id, problem_id := problem_id,
      file_name := file_name, file_path := file_path, file_type := file_type,
      file_size := file_size, file_hash := file_hash,
      is_external := is_external, user_description := user_description,
      tags := tags, ai_description := none, ai_summary := none,
      content_extracted := false, created_at := now, updated_at := now,
      indexed_at := none }
  ({ db with attachments := db.attachments ++ [a],
             nextAttachmentId := db.nextAttachmentId + 1 }, a)

/-- Row transformation of Database::update_attachment (database.rs lines
1076-1125): the dynamic UPDATE sets exactly the supplied columns, and sets
indexed_at to CURRENT_TIMESTAMP whenever an AI field is supplied. -/
def applyAttachmentUpdate (a : Attachment) (ud t ad asum : Option String)
    (ce : Option Bool) (now : String) : Attachment :=
  { a with
    user_description := match ud with | some v => some v | none => a.user_description,
    tags := match t with | some v => some v | none => a.tags,
    ai_description := match ad with | some v => some v | none => a.ai_description,
    ai_summary := match asum with | some v => some v | none => a.ai_summary,
    content_extracted := ce.getD a.content_extracted,
    indexed_at := if ad.isSome || asum.isSome then some now else a.indexed_at }

/-- Embedding of Database::update_attachment (database.rs lines 1076-1125):
run the dynamic UPDATE on the row with the given id, then re-read it. -/
def update_attachment (db : Db) (id : Int) (ud t ad asum : Option String)
    (ce : Option Bool) (now : String) : Db × Option Attachment :=
  let db' := { db with
    attachments := db.attachments.map (fun a =>
      if a.id = id then applyAttachmentUpdate a ud t ad asum ce now else a) }
  (db', get_attachment db' id)

/-- Embedding of Database::delete_attachment (database.rs lines 1127-1130):
the single statement DELETE FROM attachments WHERE id = ?.  No other table
is touched. -/
def delete_attachment (db : Db) (id : Int) : Db :=
  { db with attachments := db.attachments.filter (fun a => decide (a.id ≠ id)) }

/-- Embedding of Database::update_extraction_review (database.rs lines
1263-1269): UPDATE extractions SET user_reviewed = ?, user_approved = ?
WHERE id = ?; both columns are overwritten unconditionally, a missing
user_approved argument binds NULL.  The row is then re-read. -/
def update_extraction_review (db : Db) (id : Int) (user_reviewed : Bool)
    (user_approved : Option Bool) : Db × Option Extraction :=
  let db' := { db with
    extractions := db.extractions.map (fun e =>
      if e.id = id then
        { e with user_reviewed := user_reviewed, user_approved := user_approved }
      else e) }
  (db', db'.extractions.find? (fun e => decide (e.id = id)))

/-- Embedding of Database::log_sync_operation (database.rs lines 1386-1407):
INSERT one sync_history row and read it back. -/
def log_sync_operation (db : Db) (device_id operation : String)
    (commit_hash : Option String) (files_changed : Option Int)
    (status : String) (error_message : Option String) (now : String) :
    Db × SyncHistory :=
  let h : SyncHistory :=
    { id := db.nextSyncHistoryId, device_id := device_id,
      operation := operation, commit_hash := commit_hash,
      files_changed := files_changed, status := some status,
      error_message := error_message, created_at := now }
  ({ db with syncHistory := db.syncHistory ++ [h],
             nextSyncHistoryId := db.nextSyncHistoryId + 1 }, h)

/-- Embedding of Database::update_sync_status (database.rs lines
1316-1357): the dynamic UPDATE sets exactly the supplied columns of the
singleton row. -/
def update_sync_status (db : Db) (remote_url last_sync_at last_sync_commit : Option String)
    (pending_changes : Option Int) (has_conflicts : Option Bool) :
    Db × Option SyncStatus :=
  let db' := { db with
    syncStatus := db.syncStatus.map (fun s =>
      { s with
        remote_url := match remote_url with | some v => some v | none => s.remote_url,
        last_sync_at := match last_sync_at with | some v => some v | none => s.last_sync_at,
        last_sync_commit := match last_sync_commit with | some v => some v | none => s.last_sync_commit,
        pending_changes := pending_changes.getD s.pending_changes,
        has_conflicts := has_conflicts.getD s.has_conflicts }) }
  (db', db'.syncStatus)

/-! ### Filesystem model and the attachment store (lib.rs lines 563-727 and 1283-1332) -/

/-- What the model keeps about one file on disk: its metadata size and the
SHA-256 digest that streaming the file yields (absent when the file cannot
be read for hashing, the HashUnavailable partial-failure case). -/
structure FileData where
  size : Int
  hash : Option String
deriving Repr, DecidableEq

/-- The filesystem: an association list from absolute paths (component
lists) to file data.  Directories are implicit. -/
structure FileSys where
  files : List (List String × FileData)
deriving Repr, DecidableEq

/-- Look a path up in the filesystem. -/
def FileSys.lookup (fs : FileSys) (p : List String) : Option FileData :=
  (fs.files.find? (fun e => decide (e.fst = p))).map Prod.snd

/-- Path::exists for the model. -/
def FileSys.pathExists (fs : FileSys) (p : List String) : Bool :=
  (fs.lookup p).isSome

/-- Write data at a path (the effect of std::fs::copy at its destination:
replace the entry when present, else add it). -/
def FileSys.write (fs : FileSys) (p : List String) (d : FileData) : FileSys :=
  { files := (p, d) :: fs.files.filter (fun e => decide (e.fst ≠ p)) }

/-- Remove a path (std::fs::remove_file). -/
def FileSys.removeFile (fs : FileSys) (p : List String) : FileSys :=
  { files := fs.files.filter (fun e => decide (e.fst ≠ p)) }

/-- Rust Path::file_stem and Path::extension semantics on one file name:
split at the last dot, except that a name whose only dot is a leading one
has no extension.  Returns the stem and the optional extension. -/
def splitFileName (name : String) : String × Option String :=
  let cs := name.data
  let rev := cs.reverse
  let extRev := rev.takeWhile (fun c => decide (c ≠ '.'))
  if extRev.length = cs.length then (name, none)
  else
    let stemRev := rev.drop (extRev.length + 1)
    if stemRev.isEmpty then (name, none)
    else (String.mk stemRev.reverse, some (String.mk extRev.reverse))

/-- The project bundle directory dataRoot/projects/project_id/attachments
(lib.rs lines 1297-1302). -/
def bundleDir (dataRoot : String) (project_id : Int) : List String :=
  [dataRoot, "projects", "project_" ++ intDecimal project_id, "attachments"]

/-- The collision candidate name stem_counter.ext, or stem_counter when the
extension is empty (lib.rs lines 1317-1323). -/
def candidateName (stem ext : String) (counter : Nat) : String :=
  if ext = "" then stem ++ "_" ++ natDecimal counter
  else stem ++ "_" ++ natDecimal counter ++ "." ++ ext

/-- The while loop of copy_file_to_project_bundle (lib.rs lines 1314-1326),
written with explicit fuel: try candidate names at increasing counters
until one does not exist in the bundle.  The totality theorem below shows
the fuel bound used by uniquify always suffices, so the none case of this
function is unreachable, matching the always-terminating source loop. -/
def uniquifyAux (fs : FileSys) (bundle : List String) (stem ext : String) :
    Nat → Nat → Option String
  | 0, _ => none
  | Nat.succ fuel, counter =>
      if fs.pathExists (bundle ++ [candidateName stem ext counter]) then
        uniquifyAux fs bundle stem ext fuel (counter + 1)
      else some (candidateName stem ext counter)

/-- Unique destination name selection of copy_file_to_project_bundle: keep
the original name when free, otherwise run the counter loop from 1. -/
def uniquify (fs : FileSys) (bundle : List String) (file_name stem ext : String) :
    Option String :=
  if fs.pathExists (bundle ++ [file_name]) then
    uniquifyAux fs bundle stem ext (fs.files.length + 1) 1
  else some file_name

/-- Embedding of copy_file_to_project_bundle (lib.rs lines 1297-1332):
resolve the bundle directory, pick a free destination name (file name
defaulted to file, stem and extension from the source name), then copy;
a copy failure (source absent) is fatal.  Returns the new filesystem and
the destination path. -/
def copy_file_to_project_bundle (fs : FileSys) (dataRoot : String)
    (sourcePath : List String) (project_id : Int) :
    Except String (FileSys × List String) :=
  let bundle := bundleDir dataRoot project_id
  let file_name := sourcePath.getLast?.getD "file"
  let stem := (splitFileName file_name).fst
  let ext := ((splitFileName file_name).snd).getD ""
  match uniquify fs bundle file_name stem ext with
  | none => Except.error "ran out of candidate names"
  | some name =>
      match fs.lookup sourcePath with
      | none => Except.error "Failed to copy file: source not found"
      | some d => Except.ok (fs.write (bundle ++ [name]) d, bundle ++ [name])

/-- Embedding of the attach_file command (lib.rs lines 563-617): resolve
name and extension from the source path, read size via metadata and hash by
streaming with both failures swallowed into absent values, then either copy
into the bundle (the default) or record the external path as supplied, and
insert the attachment row. -/
def attach_file (fs : FileSys) (db : Db) (dataRoot : String)
    (project_id : Int) (file_path : List String)
    (component_id problem_id : Option Int) (user_description : Option String)
    (copy_to_bundle : Option Bool) (now : String) :
    Except String (FileSys × Db × Attachment) :=
  let file_name := file_path.getLast?.getD "unknown"
  let file_type := ((splitFileName file_name).snd).getD "unknown"
  let file_size := (fs.lookup file_path).map (fun d => d.size)
  let file_hash := (fs.lookup file_path).bind (fun d => d.hash)
  let copyB := copy_to_bundle.getD true
  let is_external := !copyB
  if copyB then
    match copy_file_to_project_bundle fs dataRoot file_path project_id with
    | Except.error e => Except.error e
    | Except.ok (fs1, finalPath) =>
        let r := create_attachment db project_id file_name finalPath file_type
          file_size file_hash is_external component_id problem_id
          user_description none now
        Except.ok (fs1, r.fst, r.snd)
  else
    let r := create_attachment db project_id file_name file_path file_type
      file_size file_hash is_external component_id problem_id
      user_description none now
    Except.ok (fs, r.fst, r.snd)

/-- Embedding of the remove_attachment command (lib.rs lines 657-672): when
delete_file is requested and the attachment is found and not external,
best-effort delete the underlying file; then delete the row. -/
def remove_attachment (fs : FileSys) (db : Db) (id : Int)
    (delete_file : Option Bool) : FileSys × Db :=
  let fs1 :=
    if delete_file.getD false then
      match get_attachment db id with
      | some att => if att.is_external then fs else fs.removeFile att.file_path
      | none => fs
    else fs
  (fs1, delete_attachment db id)

/-! ### The command layer over the whole application state -/

/-- The application state a command dispatch can reach: the git repository
at the data path and the SQLite database.  The git commands of the source
receive only the data path, never the managed database handle. -/
structure World where
  git : Option GitRepo
  db : Db
deriving Repr, DecidableEq

/-- The git_init command acting on the whole state. -/
def init_command (w : World) : InitResult × World :=
  let r := git_init w.git
  (r.fst, { w with git := r.snd })

/-- The git_status command acting on the whole state (pure read). -/
def status_command (w : World) : StatusReport × World :=
  (git_status w.git, w)

/-- The git_sync command acting on the whole state. -/
def sync_command (w : World) (commitMessage : Option String) (now : String)
    (pull : PullResult) (pushOk : Bool) : Except String SyncResult × World :=
  match git_sync w.git commitMessage now pull pushOk with
  | Except.error e => (Except.error e, w)
  | Except.ok (res, g) => (Except.ok res, { w with git := some g })

/-- The git_set_remote command acting on the whole state. -/
def set_remote_command (w : World) (url : String) :
    Except String RemoteAction × World :=
  match git_set_remote w.git url with
  | Except.error e => (Except.error e, w)
  | Except.ok (act, g) => (Except.ok act, { w with git := some g })

/-- The git_clone command acting on the whole state; the clone target is
the data path, whose non-emptiness is supplied by the environment. -/
def clone_command (w : World) (targetNonEmpty : Bool)
    (remoteCommits : List GitCommit) (url : String) :
    Except String Unit × World :=
  match git_clone targetNonEmpty remoteCommits url with
  | Except.error e => (Except.error e, w)
  | Except.ok g => (Except.ok (), { w with git := some g })

/-- The git_history command acting on the whole state (pure read). -/
def history_command (w : World) (limit : Nat) :
    Except String (List GitCommit) × World :=
  (git_history w.git limit, w)

/-! ### Concrete states used by witnesses and counterexamples -/

/-- An empty database with fresh rowid counters. -/
def emptyDb : Db :=
  { attachments := [], contentLocations := [], extractions := [],
    syncStatus := none, syncHistory := [], nextAttachmentId := 1,
    nextSyncHistoryId := 1 }

/-- An uninitialized application state. -/
def wUninit : World := { git := none, db := emptyDb }


/-- A concrete repository with a remote and a dirty working tree. -/
def rConflict : GitRepo :=
  { commits := [{ cid := 0, message := "FlowState initialized" }],
    pending := 2, remote := some "https://example/repo.git" }


/-- A concrete initialized state with a dirty working tree, no remote, and
a stale sync-status row the claim says the call must refresh. -/
def wC1 : World :=
  { git := some { commits := [{ cid := 0, message := "FlowState initialized" }],
                  pending := 3, remote := none },
    db := { emptyDb with
            syncStatus := some
              { id := 1, device_name := "mac", device_id := "d-1",
                remote_url := none, last_sync_at := none,
                last_sync_commit := none, pending_changes := 99,
                has_conflicts := false, created_at := "2026-01-01",
                updated_at := "2026-01-01" } } }


/-- An empty filesystem. -/
def fsEmpty : FileSys := { files := [] }


/-- A bundled attachment row used by the C7 states. -/
def attC7 : Attachment :=
  { id := 1, project_id := 7, component_id := none, problem_id := none,
    file_name := "notes.pdf",
    file_path := ["data", "projects", "project_7", "attachments", "notes.pdf"],
    file_type := "pdf", file_size := some 1024, file_hash := some "h1",
    is_external := false, user_description := none, tags := none,
    ai_description := none, ai_summary := none, content_extracted := false,
    created_at := "t0", updated_at := "t0", indexed_at := none }


/-- A content location owned by attachment 1. -/
def clC7 : ContentLocation :=
  { id := 1, attachment_id := 1, description := "key diagram",
    category := none, location_type := "page", start_location := "0001",
    end_location := none, snippet := none, related_problem_id := none,
    related_solution_id := none, related_learning_id := none,
    related_component_id := none, created_at := "t0" }


/-- An extraction owned by attachment 1. -/
def exC7 : Extraction :=
  { id := 1, attachment_id := 1, record_type := "learning", record_id := 3,
    source_location := none, source_snippet := none, confidence := none,
    user_reviewed := false, user_approved := none, created_at := "t0" }


/-- A database holding attachment 1 together with its owned rows. -/
def dbC7 : Db :=
  { emptyDb with attachments := [attC7], contentLocations := [clC7],
                 extractions := [exC7], nextAttachmentId := 2 }


/-- A one-row database used by the C9 witness. -/
def dbW9 : Db := { emptyDb with attachments := [attC7], nextAttachmentId := 2 }


/-- A database holding one reviewed-and-approved extraction, for the C10
witness. -/
def dbW10 : Db :=
  { emptyDb with extractions :=
      [{ exC7 with user_reviewed := true, user_approved := some true }] }


/-- Decode a decimal digit string back to the number it denotes. -/
def decodeDec (cs : List Char) : Nat :=
  cs.foldl (fun acc c => acc * 10 + (c.toNat - 48)) 0


/-- The filesystem of the C6 witness: the project-7 bundle already holds a
file called notes.pdf, and a second, different notes.pdf sits elsewhere. -/
def fsW6 : FileSys :=
  { files :=
      [ (["data", "projects", "project_7", "attachments", "notes.pdf"],
          { size := 10, hash := some "h0" }),
        (["home", "notes.pdf"], { size := 1024, hash := some "h1" }) ] }


/-- The filesystem after the C6 witness copy: notes_1.pdf added, both old
files untouched. -/
def fsW6after : FileSys :=
  { files :=
      [ (["data", "projects", "project_7", "attachments", "notes_1.pdf"],
          { size := 1024, hash := some "h1" }),
        (["data", "projects", "project_7", "attachments", "notes.pdf"],
          { size := 10, hash := some "h0" }),
        (["home", "notes.pdf"], { size := 1024, hash := some "h1" }) ] }


/-- The filesystem of the C5 witness: one source file outside any bundle. -/
def fsW5 : FileSys :=
  { files := [(["home", "report.pdf"], { size := 2048, hash := some "h2" })] }


/-- The filesystem after the C5 witness ingestion. -/
def fsW5after : FileSys :=
  { files :=
      [ (["data", "projects", "project_7", "attachments", "report.pdf"],
          { size := 2048, hash := some "h2" }),
        (["home", "report.pdf"], { size := 2048, hash := some "h2" }) ] }


/-- The attachment row the C5 witness ingestion creates. -/
def attW5 : Attachment :=
  { id := 1, project_id := 7, component_id := none, problem_id := none,
    file_name := "report.pdf",
    file_path := ["data", "projects", "project_7", "attachments", "report.pdf"],
    file_type := "pdf", file_size := some 2048, file_hash := some "h2",
    is_external := false, user_description := none, tags := none,
    ai_description := none, ai_summary := none, content_extracted := false,
    created_at := "T", updated_at := "T", indexed_at := none }


/-- The database after the C5 witness ingestion. -/
def dbW5after : Db :=
  { emptyDb with attachments := [attW5], nextAttachmentId := 2 }


/-- The attachment row created by ingesting a missing source without
copying: the call succeeds and stores absent size and hash. -/
def attGhost : Attachment :=
  { id := 1, project_id := 7, component_id := none, problem_id := none,
    file_name := "ghost.pdf", file_path := ["home", "ghost.pdf"],
    file_type := "pdf", file_size := none, file_hash := none,
    is_external := true, user_description := none, tags := none,
    ai_description := none, ai_summary := none, content_extracted := false,
    created_at := "T", updated_at := "T", indexed_at := none }


/-- The database after the C8 counterexample ingestion. -/
def dbGhost : Db :=
  { emptyDb with attachments := [attGhost], nextAttachmentId := 2 }

/-! ### C4 -/

/-- C4: init is idempotent.  Whenever the version-control metadata already
exists, git_init returns already_initialized as an ordinary (non-error)
result and leaves the repository untouched, so no new commit and no new
repository is created; in particular this holds for a second init right
after a first successful one. -/
theorem git_init_idempotent :
    (∀ r : GitRepo, git_init (some r) = (InitResult.alreadyInitialized, some r)) ∧
    (git_init (git_init none).snd).fst = InitResult.alreadyInitialized ∧
    (git_init (git_init none).snd).snd = (git_init none).snd :=
  ⟨fun _ => rfl, rfl, rfl⟩

/-! ### C3 -/

/-- C3: calling sync on a path with no version-control metadata returns the
NotInitialized error and performs no mutation at all: the git repository
state and the database are returned exactly as they were. -/
theorem sync_uninitialized_no_mutation (w : World) (cm : Option String)
    (now : String) (pull : PullResult) (pushOk : Bool) (h : w.git = none) :
    (sync_command w cm now pull pushOk).fst =
      Except.error "Git not initialized. Run git_init first." ∧
    (sync_command w cm now pull pushOk).snd = w := by
  simp [sync_command, git_sync, h]

/-- Witness for C3 at a concrete uninitialized state. -/
theorem sync_uninitialized_no_mutation_witness :
    (sync_command wUninit none "2026-10-12" PullResult.otherErr true).fst =
      Except.error "Git not initialized. Run git_init first." ∧
    (sync_command wUninit none "2026-10-12" PullResult.otherErr true).snd = wUninit :=
  sync_uninitialized_no_mutation wUninit none "2026-10-12" PullResult.otherErr true rfl

/-! ### C2 -/

/-- C2: on an initialized working tree with a configured remote, when the
rebase pull reports a conflict, git_sync returns the Conflict result whose
committed flag says whether this call made a local commit, and the local
commit made in the commit step is not rolled back: with a dirty tree the
resulting repository's head is exactly the commit created in this call
(with the old commits intact below it), as a subsequent status call also
reports; with a clean tree the repository is unchanged and the flag is
false. -/
theorem sync_conflict_preserves_local_commit (r : GitRepo) (cm : Option String)
    (now : String) (pushOk : Bool) (hrem : r.remote.isSome = true) :
    (r.pending ≠ 0 →
      git_sync (some r) cm now PullResult.conflictErr pushOk =
        Except.ok (SyncResult.conflict true,
          { r with
            commits := { cid := r.commits.length,
                         message := cm.getD ("FlowState sync - " ++ now) } :: r.commits,
            pending := 0 }) ∧
      (git_status (some
          { r with
            commits := { cid := r.commits.length,
                         message := cm.getD ("FlowState sync - " ++ now) } :: r.commits,
            pending := 0 })).last_commit =
        some { cid := r.commits.length,
               message := cm.getD ("FlowState sync - " ++ now) }) ∧
    (r.pending = 0 →
      git_sync (some r) cm now PullResult.conflictErr pushOk =
        Except.ok (SyncResult.conflict false, r)) := by
  obtain ⟨u, hu⟩ := Option.isSome_iff_exists.mp hrem
  constructor
  · intro hdirty
    constructor
    · simp [git_sync, hdirty, hu, git_status]
    · simp [git_status]
  · intro hclean
    simp [git_sync, hclean, hu]

/-- Witness for C2: at rConflict the conflict result reports committed and
the head commit is the one made by this call. -/
theorem sync_conflict_preserves_local_commit_witness :
    rConflict.remote.isSome = true ∧
    (git_sync (some rConflict) none "2026-10-12" PullResult.conflictErr true =
      Except.ok (SyncResult.conflict true,
        { rConflict with
          commits := { cid := 1, message := "FlowState sync - 2026-10-12" } ::
            rConflict.commits,
          pending := 0 }) ∧
    (git_status (some
        { rConflict with
          commits := { cid := 1, message := "FlowState sync - 2026-10-12" } ::
            rConflict.commits,
          pending := 0 })).last_commit =
      some { cid := 1, message := "FlowState sync - 2026-10-12" }) := by
  refine ⟨rfl, ?_⟩
  have h := sync_conflict_preserves_local_commit rConflict none "2026-10-12" true rfl
  exact h.1 (by decide)

/-! ### C1 -/

/-- C1 counterexample: a successful sync call that appends no SyncHistory
row and does not refresh the SyncStatus row.  The git commands of the
source never receive the database handle, so the whole database comes back
bit-for-bit unchanged although the call committed local changes. -/
theorem sync_no_bookkeeping_counterexample :
    (sync_command wC1 none "2026-10-12" PullResult.otherErr true).fst =
      Except.ok (SyncResult.committedLocal true) ∧
    (sync_command wC1 none "2026-10-12" PullResult.otherErr true).snd.db = wC1.db :=
  ⟨rfl, rfl⟩

/-- C1 amended: none of the six sync-coordinator commands (init, status,
sync, setRemote, clone, history) touches the database at all — in
particular none appends a SyncHistory row or updates the SyncStatus row as
part of the call.  The bookkeeping exists only as the separate
log_sync_operation and update_sync_status commands that a caller must
invoke itself; a log_sync_operation call appends exactly one SyncHistory
row recording the given operation name, commit id, files-changed count,
status and error message, touching nothing else. -/
theorem git_commands_no_db_effect_and_log_appends_one :
    (∀ w : World, (init_command w).snd.db = w.db) ∧
    (∀ w : World, (status_command w).snd.db = w.db) ∧
    (∀ (w : World) (cm : Option String) (now : String) (pull : PullResult)
        (pushOk : Bool), (sync_command w cm now pull pushOk).snd.db = w.db) ∧
    (∀ (w : World) (url : String), (set_remote_command w url).snd.db = w.db) ∧
    (∀ (w : World) (b : Bool) (rc : List GitCommit) (url : String),
        (clone_command w b rc url).snd.db = w.db) ∧
    (∀ (w : World) (limit : Nat), (history_command w limit).snd.db = w.db) ∧
    (∀ (db : Db) (did op : String) (ch : Option String) (fc : Option Int)
        (st : String) (em : Option String) (now : String),
      (log_sync_operation db did op ch fc st em now).fst.syncHistory =
        db.syncHistory ++ [(log_sync_operation db did op ch fc st em now).snd] ∧
      (log_sync_operation db did op ch fc st em now).snd.operation = op ∧
      (log_sync_operation db did op ch fc st em now).snd.device_id = did ∧
      (log_sync_operation db did op ch fc st em now).snd.commit_hash = ch ∧
      (log_sync_operation db did op ch fc st em now).snd.files_changed = fc ∧
      (log_sync_operation db did op ch fc st em now).snd.status = some st ∧
      (log_sync_operation db did op ch fc st em now).snd.error_message = em ∧
      (log_sync_operation db did op ch fc st em now).fst.attachments = db.attachments ∧
      (log_sync_operation db did op ch fc st em now).fst.contentLocations = db.contentLocations ∧
      (log_sync_operation db did op ch fc st em now).fst.extractions = db.extractions ∧
      (log_sync_operation db did op ch fc st em now).fst.syncStatus = db.syncStatus) := by
  refine ⟨fun w => rfl, fun w => rfl, ?_, ?_, ?_, fun w limit => rfl, ?_⟩
  · intro w cm now pull pushOk
    cases h : git_sync w.git cm now pull pushOk with
    | error e => simp [sync_command, h]
    | ok p => simp [sync_command, h]
  · intro w url
    cases h : git_set_remote w.git url with
    | error e => simp [set_remote_command, h]
    | ok p => simp [set_remote_command, h]
  · intro w b rc url
    cases h : git_clone b rc url with
    | error e => simp [clone_command, h]
    | ok p => simp [clone_command, h]
  · intro db did op ch fc st em now
    refine ⟨rfl, rfl, rfl, rfl, rfl, rfl, rfl, rfl, rfl, rfl, rfl⟩

/-! ### C7 -/

/-- C7 counterexample: deleting attachment 1 removes its attachments row
but leaves the ContentLocation and Extraction rows that reference it in
place — the delete operation performs no transitive deletion, so rows
referencing the deleted attachment remain. -/
theorem delete_attachment_leaves_owned_rows_counterexample :
    (remove_attachment fsEmpty dbC7 1 none).snd.attachments = [] ∧
    (remove_attachment fsEmpty dbC7 1 none).snd.contentLocations = [clC7] ∧
    (remove_attachment fsEmpty dbC7 1 none).snd.extractions = [exC7] ∧
    clC7.attachment_id = 1 ∧ exC7.attachment_id = 1 :=
  ⟨rfl, rfl, rfl, rfl, rfl⟩

/-- C7 amended: deleting an attachment removes only its own row from the
attachments table; the content_locations and extractions tables (and every
other table) are left entirely unchanged, so owned rows are not deleted
transitively and must be removed separately through delete_content_location
and delete_extraction. -/
theorem remove_attachment_only_attachments_row (fs : FileSys) (db : Db)
    (id : Int) (df : Option Bool) :
    (remove_attachment fs db id df).snd.attachments =
      db.attachments.filter (fun a => decide (a.id ≠ id)) ∧
    (remove_attachment fs db id df).snd.contentLocations = db.contentLocations ∧
    (remove_attachment fs db id df).snd.extractions = db.extractions ∧
    (remove_attachment fs db id df).snd.syncStatus = db.syncStatus ∧
    (remove_attachment fs db id df).snd.syncHistory = db.syncHistory :=
  ⟨rfl, rfl, rfl, rfl, rfl⟩

/-! ### Helper: find? by id after an id-preserving per-row UPDATE -/

/-- Running find? by id over a table after mapping an id-preserving update
onto the row with that id yields the updated version of the row that find?
found before. -/
theorem find?_map_ite {α : Type} (l : List α) (idOf : α → Int) (id : Int)
    (upd : α → α) (hpres : ∀ a, idOf (upd a) = idOf a) (a : α)
    (h : l.find? (fun x => decide (idOf x = id)) = some a) :
    (l.map (fun x => if idOf x = id then upd x else x)).find?
        (fun x => decide (idOf x = id)) = some (upd a) := by
  induction l with
  | nil => simp at h
  | cons b t ih =>
      by_cases hb : idOf b = id
      · rw [List.find?_cons_of_pos _ (by simp [hb])] at h
        cases h
        simp only [List.map_cons, if_pos hb]
        exact List.find?_cons_of_pos _ (by simp [hpres, hb])
      · rw [List.find?_cons_of_neg _ (by simp [hb])] at h
        simp only [List.map_cons, if_neg hb]
        rw [List.find?_cons_of_neg _ (by simp [hb])]
        exact ih h

/-! ### C9 -/

/-- C9: update_attachment mutates only the supplied optional fields.  For
the row the update targets: every column the dynamic UPDATE never lists
keeps its prior value, each supplied argument overwrites exactly its own
column, absent arguments leave their columns alone, and supplying either
AI field stamps indexed_at to the current time (while supplying neither
leaves indexed_at alone).  Rows with other ids and all other tables are
untouched, and the call returns the updated row. -/
theorem update_attachment_only_supplied_fields (db : Db) (id : Int)
    (ud t ad asum : Option String) (ce : Option Bool) (now : String)
    (a : Attachment)
    (h : db.attachments.find? (fun x => decide (x.id = id)) = some a) :
    (update_attachment db id ud t ad asum ce now).snd =
      some (applyAttachmentUpdate a ud t ad asum ce now) ∧
    (applyAttachmentUpdate a ud t ad asum ce now).id = a.id ∧
    (applyAttachmentUpdate a ud t ad asum ce now).project_id = a.project_id ∧
    (applyAttachmentUpdate a ud t ad asum ce now).component_id = a.component_id ∧
    (applyAttachmentUpdate a ud t ad asum ce now).problem_id = a.problem_id ∧
    (applyAttachmentUpdate a ud t ad asum ce now).file_name = a.file_name ∧
    (applyAttachmentUpdate a ud t ad asum ce now).file_path = a.file_path ∧
    (applyAttachmentUpdate a ud t ad asum ce now).file_type = a.file_type ∧
    (applyAttachmentUpdate a ud t ad asum ce now).file_size = a.file_size ∧
    (applyAttachmentUpdate a ud t ad asum ce now).file_hash = a.file_hash ∧
    (applyAttachmentUpdate a ud t ad asum ce now).is_external = a.is_external ∧
    (applyAttachmentUpdate a ud t ad asum ce now).created_at = a.created_at ∧
    (applyAttachmentUpdate a ud t ad asum ce now).updated_at = a.updated_at ∧
    (ud = none →
      (applyAttachmentUpdate a ud t ad asum ce now).user_description = a.user_description) ∧
    (∀ v, ud = some v →
      (applyAttachmentUpdate a ud t ad asum ce now).user_description = some v) ∧
    (t = none → (applyAttachmentUpdate a ud t ad asum ce now).tags = a.tags) ∧
    (∀ v, t = some v → (applyAttachmentUpdate a ud t ad asum ce now).tags = some v) ∧
    (ad = none →
      (applyAttachmentUpdate a ud t ad asum ce now).ai_description = a.ai_description) ∧
    (∀ v, ad = some v →
      (applyAttachmentUpdate a ud t ad asum ce now).ai_description = some v) ∧
    (asum = none →
      (applyAttachmentUpdate a ud t ad asum ce now).ai_summary = a.ai_summary) ∧
    (∀ v, asum = some v →
      (applyAttachmentUpdate a ud t ad asum ce now).ai_summary = some v) ∧
    (ce = none →
      (applyAttachmentUpdate a ud t ad asum ce now).content_extracted = a.content_extracted) ∧
    (∀ v, ce = some v →
      (applyAttachmentUpdate a ud t ad asum ce now).content_extracted = v) ∧
    (ad = none → asum = none →
      (applyAttachmentUpdate a ud t ad asum ce now).indexed_at = a.indexed_at) ∧
    (ad.isSome = true ∨ asum.isSome = true →
      (applyAttachmentUpdate a ud t ad asum ce now).indexed_at = some now) ∧
    (∀ b ∈ db.attachments, b.id ≠ id →
      b ∈ (update_attachment db id ud t ad asum ce now).fst.attachments) ∧
    (update_attachment db id ud t ad asum ce now).fst.contentLocations =
      db.contentLocations ∧
    (update_attachment db id ud t ad asum ce now).fst.extractions = db.extractions ∧
    (update_attachment db id ud t ad asum ce now).fst.syncStatus = db.syncStatus ∧
    (update_attachment db id ud t ad asum ce now).fst.syncHistory = db.syncHistory := by
  refine ⟨?_, rfl, rfl, rfl, rfl, rfl, rfl, rfl, rfl, rfl, rfl, rfl, rfl,
    ?_, ?_, ?_, ?_, ?_, ?_, ?_, ?_, ?_, ?_, ?_, ?_, ?_, rfl, rfl, rfl, rfl⟩
  · exact find?_map_ite db.attachments (fun x => x.id) id
      (fun x => applyAttachmentUpdate x ud t ad asum ce now) (fun x => rfl) a h
  · intro hud; simp [applyAttachmentUpdate, hud]
  · intro v hud; simp [applyAttachmentUpdate, hud]
  · intro ht; simp [applyAttachmentUpdate, ht]
  · intro v ht; simp [applyAttachmentUpdate, ht]
  · intro had; simp [applyAttachmentUpdate, had]
  · intro v had; simp [applyAttachmentUpdate, had]
  · intro has; simp [applyAttachmentUpdate, has]
  · intro v has; simp [applyAttachmentUpdate, has]
  · intro hce; simp [applyAttachmentUpdate, hce]
  · intro v hce; simp [applyAttachmentUpdate, hce]
  · intro had has; simp [applyAttachmentUpdate, had, has]
  · intro hsome
    cases hsome with
    | inl hl => simp [applyAttachmentUpdate, hl]
    | inr hr => simp [applyAttachmentUpdate, hr]
  · intro b hb hbid
    have hfix : (if b.id = id then applyAttachmentUpdate b ud t ad asum ce now else b) = b :=
      if_neg hbid
    exact hfix ▸ List.mem_map_of_mem
      (fun x => if x.id = id then applyAttachmentUpdate x ud t ad asum ce now else x) hb

/-- Witness for C9: updating only ai_description on the concrete row leaves
everything else alone and stamps indexed_at. -/
theorem update_attachment_only_supplied_fields_witness :
    dbW9.attachments.find? (fun x => decide (x.id = 1)) = some attC7 ∧
    (update_attachment dbW9 1 none none (some "a schematic") none none "T1").snd =
      some (applyAttachmentUpdate attC7 none none (some "a schematic") none none "T1") ∧
    (applyAttachmentUpdate attC7 none none (some "a schematic") none none "T1").indexed_at =
      some "T1" :=
  ⟨rfl,
   (update_attachment_only_supplied_fields dbW9 1 none none (some "a schematic")
      none none "T1" attC7 rfl).1,
   by simp [applyAttachmentUpdate]⟩

/-! ### C10 -/

/-- C10: update_extraction_review unconditionally overwrites the stored
user_reviewed and user_approved with the supplied values — in particular an
absent approved argument resets a previously recorded approval or rejection
back to the undecided null state rather than leaving it unchanged — while
every other field of the row, every other row, and every other table stay
unchanged; the call returns the updated row. -/
theorem update_extraction_review_overwrites (db : Db) (id : Int) (ur : Bool)
    (ua : Option Bool) (e : Extraction)
    (h : db.extractions.find? (fun x => decide (x.id = id)) = some e) :
    (update_extraction_review db id ur ua).snd =
      some { e with user_reviewed := ur, user_approved := ua } ∧
    (ua = none → (update_extraction_review db id ur ua).snd =
      some { e with user_reviewed := ur, user_approved := none }) ∧
    ({ e with user_reviewed := ur, user_approved := ua }).id = e.id ∧
    ({ e with user_reviewed := ur, user_approved := ua }).attachment_id = e.attachment_id ∧
    ({ e with user_reviewed := ur, user_approved := ua }).record_type = e.record_type ∧
    ({ e with user_reviewed := ur, user_approved := ua }).record_id = e.record_id ∧
    ({ e with user_reviewed := ur, user_approved := ua }).source_location = e.source_location ∧
    ({ e with user_reviewed := ur, user_approved := ua }).source_snippet = e.source_snippet ∧
    ({ e with user_reviewed := ur, user_approved := ua }).confidence = e.confidence ∧
    ({ e with user_reviewed := ur, user_approved := ua }).created_at = e.created_at ∧
    (∀ x ∈ db.extractions, x.id ≠ id →
      x ∈ (update_extraction_review db id ur ua).fst.extractions) ∧
    (update_extraction_review db id ur ua).fst.attachments = db.attachments ∧
    (update_extraction_review db id ur ua).fst.contentLocations = db.contentLocations ∧
    (update_extraction_review db id ur ua).fst.syncStatus = db.syncStatus ∧
    (update_extraction_review db id ur ua).fst.syncHistory = db.syncHistory := by
  have hmain : (update_extraction_review db id ur ua).snd =
      some { e with user_reviewed := ur, user_approved := ua } :=
    find?_map_ite db.extractions (fun x => x.id) id
      (fun x => { x with user_reviewed := ur, user_approved := ua })
      (fun x => rfl) e h
  refine ⟨hmain, fun hua => by rw [hmain, hua], rfl, rfl, rfl, rfl, rfl, rfl,
    rfl, rfl, ?_, rfl, rfl, rfl, rfl⟩
  intro x hx hxid
  have hfix : (if x.id = id then { x with user_reviewed := ur, user_approved := ua } else x) = x :=
    if_neg hxid
  exact hfix ▸ List.mem_map_of_mem
    (fun y => if y.id = id then { y with user_reviewed := ur, user_approved := ua } else y) hx

/-- Witness for C10: reviewing extraction 1 again with the approved
argument absent resets the stored approval to the undecided state. -/
theorem update_extraction_review_overwrites_witness :
    dbW10.extractions.find? (fun x => decide (x.id = 1)) =
      some { exC7 with user_reviewed := true, user_approved := some true } ∧
    (update_extraction_review dbW10 1 true none).snd =
      some { exC7 with user_reviewed := true, user_approved := none } :=
  ⟨rfl,
   (update_extraction_review_overwrites dbW10 1 true none
      { exC7 with user_reviewed := true, user_approved := some true } rfl).1⟩

/-! ### Decimal rendering facts needed for the collision loop -/

/-- The value a decimal digit character decodes to. -/
theorem digitChar_sub (d : Nat) (h : d < 10) :
    (Nat.digitChar d).toNat - 48 = d := by
  interval_cases d <;> rfl

/-- Decoding inverts the fuelled digit rendering whenever the fuel covers
the number. -/
theorem decodeDec_decDigitsAux :
    ∀ (fuel n : Nat), n ≤ fuel → decodeDec (decDigitsAux fuel n) = n := by
  intro fuel
  induction fuel with
  | zero =>
      intro n hn
      interval_cases n
      rfl
  | succ fuel ih =>
      intro n hn
      by_cases h0 : n = 0
      · subst h0; rfl
      · have hstep : decDigitsAux (Nat.succ fuel) n =
            decDigitsAux fuel (n / 10) ++ [Nat.digitChar (n % 10)] := by
          simp [decDigitsAux, h0]
        have hdiv : n / 10 ≤ fuel := by
          have := Nat.div_lt_self (Nat.pos_of_ne_zero h0) (by norm_num : 1 < 10)
          omega
        rw [hstep]
        have : decodeDec (decDigitsAux fuel (n / 10) ++ [Nat.digitChar (n % 10)]) =
            decodeDec (decDigitsAux fuel (n / 10)) * 10 +
              ((Nat.digitChar (n % 10)).toNat - 48) := by
          simp [decodeDec, List.foldl_append]
        rw [this, ih _ hdiv, digitChar_sub _ (Nat.mod_lt _ (by norm_num))]
        omega

/-- Decoding inverts natDecimal, so distinct numbers render to distinct
decimal strings. -/
theorem decodeDec_natDecimal (n : Nat) : decodeDec (natDecimal n).data = n := by
  by_cases h0 : n = 0
  · subst h0; rfl
  · have : natDecimal n = String.mk (decDigitsAux n n) := by simp [natDecimal, h0]
    rw [this]
    exact decodeDec_decDigitsAux n n (le_refl n)

/-- natDecimal is injective. -/
theorem natDecimal_injective : Function.Injective natDecimal := by
  intro m n h
  have h2 : decodeDec (natDecimal m).data = decodeDec (natDecimal n).data := by rw [h]
  rwa [decodeDec_natDecimal, decodeDec_natDecimal] at h2

/-- Distinct counters give distinct candidate names. -/
theorem candidateName_injective (stem ext : String) :
    Function.Injective (candidateName stem ext) := by
  intro c₁ c₂ h
  apply natDecimal_injective
  apply String.ext
  have hd := congrArg String.data h
  by_cases hext : ext = ""
  · simp [candidateName, hext, String.data_append, List.append_assoc] at hd
    exact hd
  · simp [candidateName, hext, String.data_append, List.append_assoc] at hd
    exact hd

/-! ### The collision loop finds a free name and never exhausts its fuel -/

/-- If the fuelled loop fails, every candidate it tried was an existing
bundle entry. -/
theorem uniquifyAux_none_mem (fs : FileSys) (bundle : List String)
    (stem ext : String) :
    ∀ (fuel counter : Nat),
      uniquifyAux fs bundle stem ext fuel counter = none →
      ∀ j, j < fuel →
        fs.pathExists (bundle ++ [candidateName stem ext (counter + j)]) = true := by
  intro fuel
  induction fuel with
  | zero => intro counter _ j hj; omega
  | succ fuel ih =>
      intro counter h j hj
      by_cases hc : fs.pathExists (bundle ++ [candidateName stem ext counter]) = true
      · cases j with
        | zero => simpa using hc
        | succ j' =>
            have h' : uniquifyAux fs bundle stem ext fuel (counter + 1) = none := by
              simpa [uniquifyAux, hc] using h
            have := ih (counter + 1) h' j' (by omega)
            have harith : counter + 1 + j' = counter + (j' + 1) := by omega
            rwa [harith] at this
      · exfalso
        have hc' : fs.pathExists (bundle ++ [candidateName stem ext counter]) = false :=
          Bool.eq_false_iff.mpr (fun hx => hc hx)
        simp [uniquifyAux, hc'] at h

/-- A path that exists in the filesystem is among the stored paths. -/
theorem pathExists_mem_paths (fs : FileSys) (p : List String)
    (h : fs.pathExists p = true) : p ∈ fs.files.map Prod.fst := by
  unfold FileSys.pathExists FileSys.lookup at h
  cases hf : fs.files.find? (fun e => decide (e.fst = p)) with
  | none => rw [hf] at h; simp at h
  | some e =>
      have hmem := List.mem_of_find?_eq_some hf
      have hp := List.find?_some hf
      have : e.fst = p := of_decide_eq_true hp
      exact this ▸ List.mem_map_of_mem Prod.fst hmem

/-- The fuel bound used by uniquify always suffices: with one unit of fuel
more than there are files, the counter loop cannot fail, because the
candidates it would have tried are pairwise distinct paths that would all
have to be stored in the filesystem.  Hence the source's while loop always
terminates with a name. -/
theorem uniquify_isSome (fs : FileSys) (bundle : List String)
    (file_name stem ext : String) :
    (uniquify fs bundle file_name stem ext).isSome = true := by
  unfold uniquify
  by_cases hfn : fs.pathExists (bundle ++ [file_name]) = true
  · rw [if_pos hfn]
    cases hres : uniquifyAux fs bundle stem ext (fs.files.length + 1) 1 with
    | some v => simp
    | none =>
        exfalso
        have hmem := uniquifyAux_none_mem fs bundle stem ext
          (fs.files.length + 1) 1 hres
        have hinj : Function.Injective
            (fun j : Nat => bundle ++ [candidateName stem ext (1 + j)]) := by
          intro i j hij
          have h1 : candidateName stem ext (1 + i) = candidateName stem ext (1 + j) := by
            have := List.append_cancel_left hij
            exact List.singleton_injective this
          have := candidateName_injective stem ext h1
          omega
        have hnd : ((List.range (fs.files.length + 1)).map
            (fun j => bundle ++ [candidateName stem ext (1 + j)])).Nodup :=
          List.Nodup.map hinj (List.nodup_range _)
        have hsub : ∀ p ∈ (List.range (fs.files.length + 1)).map
            (fun j => bundle ++ [candidateName stem ext (1 + j)]),
            p ∈ fs.files.map Prod.fst := by
          intro p hp
          obtain ⟨j, hj, rfl⟩ := List.mem_map.mp hp
          have hjlt := List.mem_range.mp hj
          exact pathExists_mem_paths fs _ (hmem j hjlt)
        have hcard : (fs.files.length + 1 : Nat) ≤ fs.files.length := by
          have e1 : ((List.range (fs.files.length + 1)).map
              (fun j => bundle ++ [candidateName stem ext (1 + j)])).toFinset.card =
              fs.files.length + 1 := by
            rw [List.toFinset_card_of_nodup hnd]
            simp
          have e2 : ((List.range (fs.files.length + 1)).map
              (fun j => bundle ++ [candidateName stem ext (1 + j)])).toFinset ⊆
              (fs.files.map Prod.fst).toFinset := by
            intro x hx
            rw [List.mem_toFinset] at hx
            rw [List.mem_toFinset]
            exact hsub x hx
          have e3 := Finset.card_le_card e2
          have e4 := List.toFinset_card_le (l := fs.files.map Prod.fst)
          rw [e1] at e3
          simpa using le_trans e3 e4
        omega
  · rw [if_neg hfn]
    simp

/-- What a successful run of the fuelled loop guarantees: the returned name
is the candidate at the first free counter — it does not exist in the
bundle, and every smaller counter from the start of the loop collided. -/
theorem uniquifyAux_some_spec (fs : FileSys) (bundle : List String)
    (stem ext : String) :
    ∀ (fuel counter : Nat) (name : String),
      uniquifyAux fs bundle stem ext fuel counter = some name →
      ∃ j, j < fuel ∧ name = candidateName stem ext (counter + j) ∧
        fs.pathExists (bundle ++ [name]) = false ∧
        ∀ i, i < j →
          fs.pathExists (bundle ++ [candidateName stem ext (counter + i)]) = true := by
  intro fuel
  induction fuel with
  | zero => intro counter name h; simp [uniquifyAux] at h
  | succ fuel ih =>
      intro counter name h
      by_cases hc : fs.pathExists (bundle ++ [candidateName stem ext counter]) = true
      · have h' : uniquifyAux fs bundle stem ext fuel (counter + 1) = some name := by
          simpa [uniquifyAux, hc] using h
        obtain ⟨j, hj, hname, hfree, hprev⟩ := ih (counter + 1) name h'
        refine ⟨j + 1, by omega, by rw [hname]; congr 1; omega, hfree, ?_⟩
        intro i hi
        cases i with
        | zero => simpa using hc
        | succ i' =>
            have := hprev i' (by omega)
            have harith : counter + 1 + i' = counter + (i' + 1) := by omega
            rwa [harith] at this
      · have hc' : fs.pathExists (bundle ++ [candidateName stem ext counter]) = false :=
          Bool.eq_false_iff.mpr (fun hx => hc hx)
        have hname : name = candidateName stem ext counter := by
          simpa [uniquifyAux, hc'] using h.symm
        refine ⟨0, by omega, by simpa using hname, by rwa [hname], ?_⟩
        intro i hi
        omega

/-! ### Filesystem lookup lemmas -/

/-- find? commutes with a filter that every find?-hit survives. -/
theorem find?_filter_of_imp {α : Type} (l : List α) (f q : α → Bool)
    (himp : ∀ a, q a = true → f a = true) :
    (l.filter f).find? q = l.find? q := by
  induction l with
  | nil => rfl
  | cons a t ih =>
      cases hq : q a with
      | true =>
          rw [List.filter_cons_of_pos (himp a hq)]
          rw [List.find?_cons_of_pos _ hq, List.find?_cons_of_pos _ hq]
      | false =>
          cases hf : f a with
          | true =>
              rw [List.filter_cons_of_pos hf]
              rw [List.find?_cons_of_neg _ (by simp [hq]), List.find?_cons_of_neg _ (by simp [hq])]
              exact ih
          | false =>
              rw [List.filter_cons_of_neg (by simp [hf])]
              rw [List.find?_cons_of_neg _ (by simp [hq])]
              exact ih

/-- Writing a path makes it readable with the written data. -/
theorem FileSys.lookup_write_self (fs : FileSys) (p : List String) (d : FileData) :
    (fs.write p d).lookup p = some d := by
  unfold FileSys.write FileSys.lookup
  rw [List.find?_cons_of_pos _ (by simp)]
  rfl

/-- Writing a path leaves every other path unchanged: no existing file is
overwritten by a write to a fresh path. -/
theorem FileSys.lookup_write_ne (fs : FileSys) (p q : List String) (d : FileData)
    (h : q ≠ p) : (fs.write p d).lookup q = fs.lookup q := by
  unfold FileSys.write FileSys.lookup
  rw [List.find?_cons_of_neg _ (by simpa using fun hpq => h hpq.symm)]
  rw [find?_filter_of_imp]
  intro e he
  have he' : e.fst = q := of_decide_eq_true he
  simp [he']
  exact h

/-- What uniquify guarantees about its returned name: it is free in the
bundle; with no collision it is the original file name, and on a collision
it is the suffixed candidate at the first free counter, every smaller
counter having collided. -/
theorem uniquify_spec (fs : FileSys) (bundle : List String)
    (fn stem ext name : String)
    (h : uniquify fs bundle fn stem ext = some name) :
    fs.pathExists (bundle ++ [name]) = false ∧
    (fs.pathExists (bundle ++ [fn]) = false → name = fn) ∧
    (fs.pathExists (bundle ++ [fn]) = true →
      ∃ k, 1 ≤ k ∧ name = candidateName stem ext k ∧
        ∀ i, 1 ≤ i → i < k →
          fs.pathExists (bundle ++ [candidateName stem ext i]) = true) := by
  unfold uniquify at h
  by_cases hfn : fs.pathExists (bundle ++ [fn]) = true
  · rw [if_pos hfn] at h
    obtain ⟨j, _, hname, hfree, hprev⟩ :=
      uniquifyAux_some_spec fs bundle stem ext _ 1 name h
    refine ⟨hfree, fun hcontra => absurd hfn (by simp [hcontra]), fun _ => ?_⟩
    refine ⟨1 + j, by omega, hname, ?_⟩
    intro i h1 hik
    have := hprev (i - 1) (by omega)
    have harith : 1 + (i - 1) = i := by omega
    rwa [harith] at this
  · rw [if_neg hfn] at h
    have hname : name = fn := by simpa using h.symm
    subst hname
    exact ⟨Bool.eq_false_iff.mpr hfn, fun _ => rfl,
      fun hcontra => absurd hcontra hfn⟩

/-- A successful bundle copy always lands directly inside the bundle
directory. -/
theorem copy_dest_shape (fs : FileSys) (dataRoot : String) (src : List String)
    (pid : Int) (fs' : FileSys) (dest : List String)
    (h : copy_file_to_project_bundle fs dataRoot src pid = Except.ok (fs', dest)) :
    ∃ name, dest = bundleDir dataRoot pid ++ [name] := by
  simp only [copy_file_to_project_bundle] at h
  cases hu : uniquify fs (bundleDir dataRoot pid) ((src.getLast?).getD "file")
      (splitFileName ((src.getLast?).getD "file")).fst
      (((splitFileName ((src.getLast?).getD "file")).snd).getD "") with
  | none => rw [hu] at h; simp at h
  | some name =>
      rw [hu] at h
      cases hs : fs.lookup src with
      | none => rw [hs] at h; simp at h
      | some d =>
          rw [hs] at h
          have hd : bundleDir dataRoot pid ++ [name] = dest := by
            have := (Except.ok.injEq _ _).mp h
            exact congrArg Prod.snd this
          exact ⟨name, hd.symm⟩

/-! ### C6 -/

/-- C6: a successful copy into the project bundle never overwrites: the
destination path did not exist beforehand, every other path keeps exactly
its old content, and the destination receives the source's content.  On a
destination-name collision the stored name is the stem_counter.extension
candidate at the first free counter, counting up from 1 with every smaller
counter having collided; with no collision the original name is kept. -/
theorem copy_bundle_unique_name (fs : FileSys) (dataRoot : String)
    (src : List String) (pid : Int) (fs' : FileSys) (dest : List String)
    (h : copy_file_to_project_bundle fs dataRoot src pid = Except.ok (fs', dest)) :
    fs.pathExists dest = false ∧
    (∀ q, q ≠ dest → fs'.lookup q = fs.lookup q) ∧
    fs'.lookup dest = fs.lookup src ∧
    (fs.pathExists (bundleDir dataRoot pid ++ [(src.getLast?).getD "file"]) = true →
      ∃ k, 1 ≤ k ∧
        dest = bundleDir dataRoot pid ++
          [candidateName (splitFileName ((src.getLast?).getD "file")).fst
            (((splitFileName ((src.getLast?).getD "file")).snd).getD "") k] ∧
        ∀ i, 1 ≤ i → i < k →
          fs.pathExists (bundleDir dataRoot pid ++
            [candidateName (splitFileName ((src.getLast?).getD "file")).fst
              (((splitFileName ((src.getLast?).getD "file")).snd).getD "") i]) = true) ∧
    (fs.pathExists (bundleDir dataRoot pid ++ [(src.getLast?).getD "file"]) = false →
      dest = bundleDir dataRoot pid ++ [(src.getLast?).getD "file"]) := by
  simp only [copy_file_to_project_bundle] at h
  cases hu : uniquify fs (bundleDir dataRoot pid) ((src.getLast?).getD "file")
      (splitFileName ((src.getLast?).getD "file")).fst
      (((splitFileName ((src.getLast?).getD "file")).snd).getD "") with
  | none => rw [hu] at h; simp at h
  | some name =>
      rw [hu] at h
      cases hs : fs.lookup src with
      | none => rw [hs] at h; simp at h
      | some d =>
          rw [hs] at h
          obtain ⟨hfs', hdest⟩ :
              fs.write (bundleDir dataRoot pid ++ [name]) d = fs' ∧
              bundleDir dataRoot pid ++ [name] = dest :=
            Prod.mk.injEq .. ▸ (Except.ok.injEq _ _).mp h
          obtain ⟨hfree, hno, hcol⟩ := uniquify_spec fs (bundleDir dataRoot pid)
            ((src.getLast?).getD "file") (splitFileName ((src.getLast?).getD "file")).fst
            (((splitFileName ((src.getLast?).getD "file")).snd).getD "") name hu
          subst hdest
          subst hfs'
          refine ⟨hfree, ?_, ?_, ?_, ?_⟩
          · intro q hq
            exact FileSys.lookup_write_ne fs _ q d hq
          · rw [FileSys.lookup_write_self]
          · intro hcoll
            obtain ⟨k, hk1, hkname, hkprev⟩ := hcol hcoll
            exact ⟨k, hk1, by rw [hkname], hkprev⟩
          · intro hnone
            rw [hno hnone]

/-- Witness for C6: copying a second notes.pdf into the project-7 bundle
stores it as notes_1.pdf at a path that did not exist before, and the
destination carries the new source's content. -/
theorem copy_bundle_unique_name_witness :
    copy_file_to_project_bundle fsW6 "data" ["home", "notes.pdf"] 7 =
      Except.ok (fsW6after,
        ["data", "projects", "project_7", "attachments", "notes_1.pdf"]) ∧
    fsW6.pathExists ["data", "projects", "project_7", "attachments", "notes_1.pdf"] =
      false ∧
    fsW6after.lookup ["data", "projects", "project_7", "attachments", "notes_1.pdf"] =
      fsW6.lookup ["home", "notes.pdf"] :=
  ⟨rfl,
   (copy_bundle_unique_name fsW6 "data" ["home", "notes.pdf"] 7 fsW6after
      ["data", "projects", "project_7", "attachments", "notes_1.pdf"] rfl).1,
   (copy_bundle_unique_name fsW6 "data" ["home", "notes.pdf"] 7 fsW6after
      ["data", "projects", "project_7", "attachments", "notes_1.pdf"] rfl).2.2.1⟩

/-! ### C5 -/

/-- C5: ingesting with copyIntoBundle true — or with the flag omitted,
whose default is true — stores the attachment with is_external false and a
file_path lying directly inside the project's bundle directory
dataRoot/projects/project_id/attachments. -/
theorem attach_file_copy_inside_bundle (fs : FileSys) (db : Db)
    (dataRoot : String) (pid : Int) (path : List String)
    (cid prid : Option Int) (udesc : Option String) (ctb : Option Bool)
    (now : String) (fs' : FileSys) (db' : Db) (att : Attachment)
    (hc : ctb = none ∨ ctb = some true)
    (h : attach_file fs db dataRoot pid path cid prid udesc ctb now =
      Except.ok (fs', db', att)) :
    att.is_external = false ∧
    ∃ name, att.file_path = bundleDir dataRoot pid ++ [name] := by
  have hcb : ctb.getD true = true := by rcases hc with rfl | rfl <;> rfl
  simp only [attach_file, hcb, Bool.not_true, if_true] at h
  cases hcopy : copy_file_to_project_bundle fs dataRoot path pid with
  | error e => rw [hcopy] at h; simp at h
  | ok pr =>
      obtain ⟨fs1, fp⟩ := pr
      rw [hcopy] at h
      obtain ⟨h1, h23⟩ :
          fs1 = fs' ∧
          create_attachment db pid ((path.getLast?).getD "unknown") fp
            (((splitFileName ((path.getLast?).getD "unknown")).snd).getD "unknown")
            ((fs.lookup path).map (fun d => d.size))
            ((fs.lookup path).bind (fun d => d.hash)) false cid prid udesc
            none now = (db', att) := by
        simpa using h
      have h3 := congrArg Prod.snd h23
      simp only [Prod.snd] at h3
      constructor
      · rw [← h3]
        exact rfl
      · obtain ⟨name, hname⟩ := copy_dest_shape fs dataRoot path pid fs1 fp hcopy
        refine ⟨name, ?_⟩
        rw [← h3]
        exact hname

/-- Witness for C5: ingesting report.pdf with the flag omitted copies it
into the project-7 bundle and records it as non-external. -/
theorem attach_file_copy_inside_bundle_witness :
    attach_file fsW5 emptyDb "data" 7 ["home", "report.pdf"] none none none
      none "T" = Except.ok (fsW5after, dbW5after, attW5) ∧
    attW5.is_external = false ∧
    (∃ name, attW5.file_path = bundleDir "data" 7 ++ [name]) :=
  ⟨rfl,
   (attach_file_copy_inside_bundle fsW5 emptyDb "data" 7 ["home", "report.pdf"]
      none none none none "T" fsW5after dbW5after attW5 (Or.inl rfl) rfl).1,
   (attach_file_copy_inside_bundle fsW5 emptyDb "data" 7 ["home", "report.pdf"]
      none none none none "T" fsW5after dbW5after attW5 (Or.inl rfl) rfl).2⟩

/-! ### C8 -/

/-- C8 counterexample: ingesting a source path that does not exist, with
copyIntoBundle false, does not fail at all — the metadata error is
swallowed and the call succeeds with absent size and hash, so reading the
size via filesystem metadata does not yield a NotFound failure of the
call. -/
theorem attach_missing_source_succeeds_counterexample :
    fsEmpty.lookup ["home", "ghost.pdf"] = none ∧
    attach_file fsEmpty emptyDb "data" 7 ["home", "ghost.pdf"] none none none
      (some false) "T" = Except.ok (fsEmpty, dbGhost, attGhost) ∧
    attGhost.file_size = none ∧ attGhost.file_hash = none :=
  ⟨rfl, rfl, rfl, rfl⟩

/-- C8 amended: when the ingest source does not exist, the metadata read
does not fail the call: the size and hash errors are swallowed and stored
as absent.  With copyIntoBundle false the call succeeds with absent
metadata; with copyIntoBundle true (or omitted) the call fails only later,
at the copy step, with the copy failure error. -/
theorem attach_file_missing_source (fs : FileSys) (db : Db) (dataRoot : String)
    (pid : Int) (path : List String) (cid prid : Option Int)
    (udesc : Option String) (now : String) (h : fs.lookup path = none) :
    (∃ fsr dbr att,
      attach_file fs db dataRoot pid path cid prid udesc (some false) now =
        Except.ok (fsr, dbr, att) ∧ att.file_size = none ∧ att.file_hash = none) ∧
    (∀ ctb : Option Bool, ctb = none ∨ ctb = some true →
      attach_file fs db dataRoot pid path cid prid udesc ctb now =
        Except.error "Failed to copy file: source not found") := by
  constructor
  · refine ⟨fs, _, _, rfl, ?_, ?_⟩
    · simp [create_attachment, h]
    · simp [create_attachment, h]
  · intro ctb hc
    have hcb : ctb.getD true = true := by rcases hc with rfl | rfl <;> rfl
    have hun := uniquify_isSome fs (bundleDir dataRoot pid)
      ((path.getLast?).getD "file")
      (splitFileName ((path.getLast?).getD "file")).fst
      (((splitFileName ((path.getLast?).getD "file")).snd).getD "")
    cases hu : uniquify fs (bundleDir dataRoot pid) ((path.getLast?).getD "file")
        (splitFileName ((path.getLast?).getD "file")).fst
        (((splitFileName ((path.getLast?).getD "file")).snd).getD "") with
    | none => rw [hu] at hun; simp at hun
    | some name =>
        have hcopy : copy_file_to_project_bundle fs dataRoot path pid =
            Except.error "Failed to copy file: source not found" := by
          simp only [copy_file_to_project_bundle, hu, h]
        simp [attach_file, hcb, hcopy]

/-- Witness for C8: the amended behavior at the concrete missing source. -/
theorem attach_file_missing_source_witness :
    fsEmpty.lookup ["home", "ghost.pdf"] = none ∧
    ((∃ fsr dbr att,
      attach_file fsEmpty emptyDb "data" 7 ["home", "ghost.pdf"] none none none
        (some false) "T" = Except.ok (fsr, dbr, att) ∧
        att.file_size = none ∧ att.file_hash = none) ∧
    (∀ ctb : Option Bool, ctb = none ∨ ctb = some true →
      attach_file fsEmpty emptyDb "data" 7 ["home", "ghost.pdf"] none none none
        ctb "T" = Except.error "Failed to copy file: source not found")) :=
  ⟨rfl, attach_file_missing_source fsEmpty emptyDb "data" 7 ["home", "ghost.pdf"]
    none none none "T" rfl⟩

theorem eval_example_0 : natDecimal 0 = "0" := rfl

theorem eval_example_1 : natDecimal 7 = "7" := rfl

theorem eval_example_2 : natDecimal 12 = "12" := rfl

theorem eval_example_3 : natDecimal 907 = "907" := rfl

theorem eval_example_4 : intDecimal (-45) = "-45" := rfl


theorem eval_example_5 : splitFileName "notes.pdf" = ("notes", some "pdf") := rfl

theorem eval_example_6 : splitFileName "archive.tar.gz" = ("archive.tar", some "gz") := rfl

theorem eval_example_7 : splitFileName "README" = ("README", none) := rfl

theorem eval_example_8 : splitFileName ".gitignore" = (".gitignore", none) := rfl


end FlowState
